import Mathlib

/-!
Shallow embedding of the contract-interaction and price-discovery core of
the ColossusWeb3 backend (files src/services/tokens/priceOracles.ts and
src/services/contracts/interact.ts), together with theorems settling the
frozen claims about it.

External collaborators (the ledger RPC node, the block explorer, the
Chainlink feed, the Uniswap pair) are modelled as oracle arguments: each
public operation takes the answers of the outside world as an explicit
parameter and returns, besides its result, the observable effects it
performed (cache writes, derivation counts, submitted nonces, ...), so that
the claims about call counts, ordering and frame conditions can be stated
and proved.
-/

namespace ColossusWeb3

/-! ### Price oracle (src/services/tokens/priceOracles.ts) -/

/-- One entry of the price cache: `{price (decimal string), timestamp (ms)}`. -/
structure CacheEntry where
  price : String
  timestamp : Nat
deriving DecidableEq, Repr

/-- The module level `priceCache` object: a JavaScript dictionary, i.e. a
partial map from string keys to entries. -/
def PriceCache : Type := String → Option CacheEntry

/-- `const CACHE_EXPIRATION = 5 * 60 * 1000` (five minutes, in ms). -/
def CACHE_EXPIRATION : Nat := 5 * 60 * 1000

/-- JavaScript `toLowerCase()` on the ASCII strings used here: lowercase
every character.  (Defined over the character list, which is what the
operation does; core's `String.toLower` is the same map phrased by
well-founded recursion on byte positions.) -/
def toLowerCase (s : String) : String := String.mk (s.data.map Char.toLower)

/-- The cache key used by `getTokenPrice` and `clearCache`:
`tokenAddress.toLowerCase() + "_" + network`. -/
def cacheKey (tokenAddress network : String) : String :=
  toLowerCase tokenAddress ++ "_" ++ network

/-- `enum PriceSource { CHAINLINK, UNISWAP_V2 }`. -/
inductive PriceSource where
  | CHAINLINK
  | UNISWAP_V2
deriving DecidableEq, Repr

/-- A TypeScript enum member interpolated into a template string prints its
numeric value. -/
def PriceSource.render : PriceSource → String
  | .CHAINLINK => "0"
  | .UNISWAP_V2 => "1"

/-- Outcome of one call to the private derivation routine
`getPriceFromUniswapV2`: it can throw (error message), resolve to `null`
(no pool / no feed), or resolve to a price string. -/
def DeriveOutcome : Type := Except String (Option String)

/-- What one `getTokenPrice` call returns and does: its result (the promise
resolving to a price string, or the rejection message), the cache after the
call, how many times the derivation routine ran, and the error-log lines
emitted. -/
structure PriceQueryOut where
  result : Except String String
  cache : PriceCache
  derivations : Nat
  errorLog : List String

/-- The cache-miss branch of `getTokenPrice` (lines 77-93 of
priceOracles.ts): run `getPriceFromUniswapV2` once; on a non-null price
write `{price, timestamp := now}` under `key` and resolve with it; on
`null` fall through to the rejection; on a thrown error log it (the
template string renders the numeric `preferredSource`) and fall through to
the same rejection.  Neither failing path touches the cache. -/
def getTokenPriceMiss (cache : PriceCache) (now : Nat) (key : String)
    (tokenAddress network : String) (preferredSource : PriceSource)
    (derive : DeriveOutcome) : PriceQueryOut :=
  match derive with
  | Except.ok (some price) =>
      { result := Except.ok price,
        cache := fun k =>
          if k = key then some { price := price, timestamp := now } else cache k,
        derivations := 1, errorLog := [] }
  | Except.ok none =>
      { result := Except.error
          ("Unable to get price for token " ++ tokenAddress ++ " on " ++ network),
        cache := cache, derivations := 1, errorLog := [] }
  | Except.error msg =>
      { result := Except.error
          ("Unable to get price for token " ++ tokenAddress ++ " on " ++ network),
        cache := cache, derivations := 1,
        errorLog := ["Error getting price from source "
          ++ preferredSource.render ++ ": " ++ msg] }

/-- `getTokenPrice(tokenAddress, network, preferredSource)` from
priceOracles.ts, with the current clock `now` and the derivation outcome
`derive` supplied by the environment.  Mirrors the source: serve the cache
entry if it exists and is younger than `CACHE_EXPIRATION`, performing no
derivation; otherwise take the miss branch. -/
def getTokenPrice (cache : PriceCache) (now : Nat)
    (tokenAddress network : String) (preferredSource : PriceSource)
    (derive : DeriveOutcome) : PriceQueryOut :=
  match cache (cacheKey tokenAddress network) with
  | some entry =>
      if now - entry.timestamp < CACHE_EXPIRATION then
        { result := Except.ok entry.price, cache := cache,
          derivations := 0, errorLog := [] }
      else
        getTokenPriceMiss cache now (cacheKey tokenAddress network)
          tokenAddress network preferredSource derive
  | none =>
      getTokenPriceMiss cache now (cacheKey tokenAddress network)
        tokenAddress network preferredSource derive

/-- `clearCache(tokenAddress?, network?)` from priceOracles.ts, acting
pointwise on the cache dictionary: both arguments delete the single
matching key; a token alone deletes every key starting with
`token.toLowerCase() + "_"`; a network alone deletes every key ending with
`"_" + network`; no arguments empty the cache. -/
def clearCache (cache : PriceCache) (tokenAddress network : Option String) :
    PriceCache :=
  match tokenAddress, network with
  | some t, some n => fun k => if k = cacheKey t n then none else cache k
  | some t, none => fun k =>
      if k.startsWith (toLowerCase t ++ "_") then none else cache k
  | none, some n => fun k =>
      if k.endsWith ("_" ++ n) then none else cache k
  | none, none => fun _ => none

/-- `ethers.formatEther` on a raw (wei-scale) reserve: division by `10^18`,
read in exact rational arithmetic. -/
def formatEther (wei : Nat) : ℚ := (wei : ℚ) / 10 ^ 18

/-- The reserve-ratio computation at the end of `getPriceFromUniswapV2`
(lines 166-199): return `null` when neither pair token is the network's
WETH; when `token0` is WETH the price is
`reserve0AsEther * wethPrice / reserve1AsEther`; otherwise `token1` is WETH
and the price is `reserve1AsEther * wethPrice / reserve0AsEther`. -/
def uniswapV2PairPrice (token0 token1 wethAddress : String)
    (reserve0 reserve1 : Nat) (wethPrice : ℚ) : Option ℚ :=
  if toLowerCase token0 ≠ toLowerCase wethAddress ∧
      toLowerCase token1 ≠ toLowerCase wethAddress then
    none
  else if toLowerCase token0 = toLowerCase wethAddress then
    some (formatEther reserve0 * wethPrice / formatEther reserve1)
  else
    some (formatEther reserve1 * wethPrice / formatEther reserve0)

/-! ### Price oracle lemmas and claim theorems -/

theorem getTokenPriceMiss_derivations (cache : PriceCache) (now : Nat)
    (key tokenAddress network : String) (preferredSource : PriceSource)
    (derive : DeriveOutcome) :
    (getTokenPriceMiss cache now key tokenAddress network preferredSource
      derive).derivations = 1 := by
  unfold getTokenPriceMiss
  cases derive with
  | error msg => rfl
  | ok p => cases p <;> rfl

theorem getTokenPriceMiss_error_frame (cache : PriceCache) (now : Nat)
    (key tokenAddress network : String) (preferredSource : PriceSource)
    (derive : DeriveOutcome) (msg : String)
    (hfail : (getTokenPriceMiss cache now key tokenAddress network preferredSource
      derive).result = Except.error msg) :
    (getTokenPriceMiss cache now key tokenAddress network preferredSource
      derive).cache = cache := by
  unfold getTokenPriceMiss at *
  cases derive with
  | error m => rfl
  | ok p =>
      cases p with
      | none => rfl
      | some price => simp at hfail

/-- C2: a cache entry younter than `CACHE_EXPIRATION` is served verbatim
with no derivation and no cache write; an entry of age `CACHE_EXPIRATION`
or more is not served, and the call proceeds exactly as the cache-miss
branch does (re-deriving once). -/
theorem getTokenPrice_ttl (cache : PriceCache) (now : Nat)
    (tokenAddress network : String) (preferredSource : PriceSource)
    (derive : DeriveOutcome) (entry : CacheEntry)
    (hentry : cache (cacheKey tokenAddress network) = some entry) :
    (now - entry.timestamp < CACHE_EXPIRATION →
      getTokenPrice cache now tokenAddress network preferredSource derive =
        { result := Except.ok entry.price, cache := cache,
          derivations := 0, errorLog := [] })
    ∧ (CACHE_EXPIRATION ≤ now - entry.timestamp →
      (getTokenPrice cache now tokenAddress network preferredSource
          derive).derivations = 1
      ∧ getTokenPrice cache now tokenAddress network preferredSource derive =
          getTokenPriceMiss cache now (cacheKey tokenAddress network)
            tokenAddress network preferredSource derive) := by
  constructor
  · intro hfresh
    unfold getTokenPrice
    rw [hentry]
    simp [hfresh]
  · intro hstale
    have hnot : ¬ now - entry.timestamp < CACHE_EXPIRATION := not_lt.mpr hstale
    unfold getTokenPrice
    rw [hentry]
    simp only [hnot, if_false]
    exact ⟨getTokenPriceMiss_derivations _ _ _ _ _ _ _, by trivial⟩

/-- A concrete run of `getTokenPrice_ttl`: a mainnet cache written at
`t = 1000` is served at `t = 1500` and re-derived at `t = 1000 + TTL`. -/
def cacheWithEntry : PriceCache := fun k =>
  if k = "0xaaa_mainnet" then some { price := "1.5", timestamp := 1000 } else none

theorem getTokenPrice_ttl_witness :
    (getTokenPrice cacheWithEntry 1500 "0xAAA" "mainnet" PriceSource.UNISWAP_V2
        (Except.ok (some "2.0")) =
      { result := Except.ok "1.5", cache := cacheWithEntry,
        derivations := 0, errorLog := [] })
    ∧ (getTokenPrice cacheWithEntry (1000 + CACHE_EXPIRATION) "0xAAA" "mainnet"
        PriceSource.UNISWAP_V2 (Except.ok (some "2.0"))).derivations = 1 := by
  have hentry : cacheWithEntry (cacheKey "0xAAA" "mainnet") =
      some { price := "1.5", timestamp := 1000 } := by decide
  exact ⟨(getTokenPrice_ttl cacheWithEntry 1500 "0xAAA" "mainnet"
      PriceSource.UNISWAP_V2 (Except.ok (some "2.0")) _ hentry).1 (by decide),
    ((getTokenPrice_ttl cacheWithEntry (1000 + CACHE_EXPIRATION) "0xAAA" "mainnet"
      PriceSource.UNISWAP_V2 (Except.ok (some "2.0")) _ hentry).2 (by decide)).1⟩

/-- C7: whenever `getTokenPrice` rejects, the cache after the call is the
cache before it — no entry, partial or otherwise, is written on any
failing path. -/
theorem getTokenPrice_error_frame (cache : PriceCache) (now : Nat)
    (tokenAddress network : String) (preferredSource : PriceSource)
    (derive : DeriveOutcome) (msg : String)
    (hfail : (getTokenPrice cache now tokenAddress network preferredSource
      derive).result = Except.error msg) :
    (getTokenPrice cache now tokenAddress network preferredSource
      derive).cache = cache := by
  unfold getTokenPrice at *
  cases hc : cache (cacheKey tokenAddress network) with
  | some entry =>
      rw [hc] at hfail
      by_cases hfresh : now - entry.timestamp < CACHE_EXPIRATION
      · simp [hfresh] at hfail
      · simp only [hfresh, if_false] at hfail ⊢
        exact getTokenPriceMiss_error_frame _ _ _ _ _ _ _ _ hfail
  | none =>
      rw [hc] at hfail
      exact getTokenPriceMiss_error_frame _ _ _ _ _ _ _ _ hfail

theorem getTokenPrice_error_frame_witness :
    (getTokenPrice (fun _ => none) 0 "0xBBB" "mainnet" PriceSource.UNISWAP_V2
      (Except.ok none)).cache = (fun _ => none) :=
  getTokenPrice_error_frame (fun _ => none) 0 "0xBBB" "mainnet"
    PriceSource.UNISWAP_V2 (Except.ok none)
    ("Unable to get price for token " ++ "0xBBB" ++ " on " ++ "mainnet") rfl

/-- C8: `clearCache` with both arguments removes exactly the key
`lowercase(tokenAddress) ++ "_" ++ network` and nothing else (the model is
a pure total function, so it performs no I/O and cannot fail), and a
`getTokenPrice` call for that key immediately afterwards runs the
derivation instead of serving the cache. -/
theorem clearCache_single_key (cache : PriceCache) (tokenAddress network : String)
    (now : Nat) (preferredSource : PriceSource) (derive : DeriveOutcome)
    (k : String) :
    (clearCache cache (some tokenAddress) (some network) k =
      if k = cacheKey tokenAddress network then none else cache k)
    ∧ (getTokenPrice (clearCache cache (some tokenAddress) (some network)) now
        tokenAddress network preferredSource derive).derivations = 1 := by
  constructor
  · rfl
  · unfold getTokenPrice
    have hcleared : clearCache cache (some tokenAddress) (some network)
        (cacheKey tokenAddress network) = none := by
      unfold clearCache
      simp
    rw [hcleared]
    exact getTokenPriceMiss_derivations _ _ _ _ _ _ _

/-- C10: the `preferredSource` argument has no effect on the result, the
cache update, or the number of derivations performed — the two enum values
lead to the same Uniswap-V2 derivation on every path (only the error-log
text can mention the source). -/
theorem getTokenPrice_source_independent (cache : PriceCache) (now : Nat)
    (tokenAddress network : String) (derive : DeriveOutcome)
    (s1 s2 : PriceSource) :
    (getTokenPrice cache now tokenAddress network s1 derive).result =
      (getTokenPrice cache now tokenAddress network s2 derive).result
    ∧ (getTokenPrice cache now tokenAddress network s1 derive).cache =
      (getTokenPrice cache now tokenAddress network s2 derive).cache
    ∧ (getTokenPrice cache now tokenAddress network s1 derive).derivations =
      (getTokenPrice cache now tokenAddress network s2 derive).derivations := by
  unfold getTokenPrice getTokenPriceMiss
  cases hc : cache (cacheKey tokenAddress network) with
  | some entry =>
      by_cases hfresh : now - entry.timestamp < CACHE_EXPIRATION
      · simp [hfresh]
      · simp only [hfresh, if_false]
        cases derive with
        | error msg => exact ⟨rfl, rfl, rfl⟩
        | ok p => cases p <;> exact ⟨rfl, rfl, rfl⟩
  | none =>
      cases derive with
      | error msg => exact ⟨rfl, rfl, rfl⟩
      | ok p => cases p <;> exact ⟨rfl, rfl, rfl⟩

/-- C3: the pool-derived price is
`(referenceAssetReserve / tokenReserve) * referenceAssetPriceUSD`, with the
numerator taken from whichever reserve slot holds the reference asset; in
the concrete scenario (10 WETH in slot 0, 20000 TOKEN in slot 1, 3000
USD/ETH) the derived price is 1.50 USD. -/
theorem uniswapV2PairPrice_formula (token0 token1 wethAddress : String)
    (reserve0 reserve1 : Nat) (wethPrice : ℚ) :
    (toLowerCase token0 = toLowerCase wethAddress →
      uniswapV2PairPrice token0 token1 wethAddress reserve0 reserve1 wethPrice =
        some (formatEther reserve0 / formatEther reserve1 * wethPrice))
    ∧ (toLowerCase token0 ≠ toLowerCase wethAddress →
       toLowerCase token1 = toLowerCase wethAddress →
      uniswapV2PairPrice token0 token1 wethAddress reserve0 reserve1 wethPrice =
        some (formatEther reserve1 / formatEther reserve0 * wethPrice))
    ∧ uniswapV2PairPrice "0xC02aaA39b223FE8D0A0e5C4F27eAD9083C756Cc2"
        "0x6B175474E89094C44Da98b954EedeAC495271d0F"
        "0xC02aaA39b223FE8D0A0e5C4F27eAD9083C756Cc2"
        (10 * 10 ^ 18) (20000 * 10 ^ 18) 3000 = some (3 / 2) := by
  refine ⟨?_, ?_, ?_⟩
  · intro h0
    unfold uniswapV2PairPrice
    rw [if_neg (fun h => h.1 h0), if_pos h0, mul_div_right_comm]
  · intro h0 h1
    unfold uniswapV2PairPrice
    rw [if_neg (fun h => h.2 h1), if_neg h0, mul_div_right_comm]
  · unfold uniswapV2PairPrice
    rw [if_neg (fun h => h.1 rfl), if_pos rfl]
    unfold formatEther
    norm_num

theorem uniswapV2PairPrice_formula_witness :
    uniswapV2PairPrice "0xWETH" "0xTOK" "0xWETH" (2 * 10 ^ 18) (8 * 10 ^ 18) 100 =
      some (formatEther (2 * 10 ^ 18) / formatEther (8 * 10 ^ 18) * 100) ∧
    uniswapV2PairPrice "0xTOK" "0xWETH" "0xWETH" (8 * 10 ^ 18) (2 * 10 ^ 18) 100 =
      some (formatEther (2 * 10 ^ 18) / formatEther (8 * 10 ^ 18) * 100) := by
  constructor
  · exact (uniswapV2PairPrice_formula "0xWETH" "0xTOK" "0xWETH"
      (2 * 10 ^ 18) (8 * 10 ^ 18) 100).1 rfl
  · exact ((uniswapV2PairPrice_formula "0xTOK" "0xWETH" "0xWETH"
      (8 * 10 ^ 18) (2 * 10 ^ 18) 100).2).1 (by decide) rfl

/-! ### Contract interaction service (src/services/contracts/interact.ts) -/

/-- `ContractConfig` from src/types/index.ts.  The ABI is kept as an opaque
list of fragment strings. -/
structure ContractConfig where
  address : String
  abi : Option (List String)
  providerUrl : String
  privateKey : Option String
  etherscanApiKey : Option String
  etherscanNetwork : Option String

/-- The two failure classes of `initialize()`: both are "no usable ABI"
errors (`AbiResolutionError` in the spec's taxonomy), with the message the
source throws. -/
inductive InitError where
  | abiResolution (msg : String)
deriving DecidableEq, Repr

/-- The bound service after a successful `initialize()`: the resolved ABI
and whether a signing identity (wallet) was attached. -/
structure BoundService where
  abi : List String
  hasWallet : Bool
deriving DecidableEq, Repr

/-- Result of `initialize()` together with the number of block-explorer
HTTP requests it made. -/
structure InitOut where
  outcome : Except InitError BoundService
  explorerCalls : Nat

/-- `initialize()` from interact.ts, with the block explorer modelled as an
oracle from `(address, network)` to either an ABI or a failure message
(covering both transport errors and `status != "1"` responses).  If the
config has an ABI it is used directly, with no explorer request; otherwise
an Etherscan API key is required (its absence throws `Either ABI or
Etherscan API key must be provided`), the network defaults to `mainnet`,
and an explorer failure is rethrown as `Could not get ABI: ...`.  A wallet
is attached exactly when a private key is present. -/
def initializeService (config : ContractConfig)
    (explorer : String → String → Except String (List String)) : InitOut :=
  match config.abi with
  | some abi =>
      { outcome := Except.ok { abi := abi, hasWallet := config.privateKey.isSome },
        explorerCalls := 0 }
  | none =>
      match config.etherscanApiKey with
      | none =>
          { outcome := Except.error
              (InitError.abiResolution "Either ABI or Etherscan API key must be provided"),
            explorerCalls := 0 }
      | some _ =>
          match explorer config.address (config.etherscanNetwork.getD "mainnet") with
          | Except.ok abi =>
              { outcome := Except.ok
                  { abi := abi, hasWallet := config.privateKey.isSome },
                explorerCalls := 1 }
          | Except.error msg =>
              { outcome := Except.error
                  (InitError.abiResolution ("Could not get ABI: " ++ msg)),
                explorerCalls := 1 }

/-- The mutable state of a `ContractInteractionService` that the
subscription and transaction claims depend on: whether `initialize()` has
bound a contract, whether a wallet is attached, and the
`eventListeners: Map<string, Listener>` (listeners tagged by numbers). -/
structure InteractState where
  initialized : Bool
  hasWallet : Bool
  eventListeners : String → Option Nat

/-- The listener id built by `subscribeToEvent`:
`` `${eventName}-${Date.now()}` ``. -/
def mkListenerId (eventName : String) (now : Nat) : String :=
  eventName ++ "-" ++ toString now

/-- `subscribeToEvent(eventName, callback, filter)` from interact.ts, with
the clock reading `now` supplied by the environment and the callback
represented by its tag.  Registers the listener under
`mkListenerId eventName now` (a `Map.set`, overwriting any listener already
stored under the same id) and returns the id. -/
def subscribeToEvent (s : InteractState) (eventName : String) (callback : Nat)
    (now : Nat) : Except String (String × InteractState) :=
  if s.initialized = false then
    Except.error "Contract not initialized. Call initialize() first."
  else
    Except.ok (mkListenerId eventName now,
      { s with eventListeners := fun k =>
          if k = mkListenerId eventName now then some callback
          else s.eventListeners k })

/-- Result of `unsubscribeFromEvent`: its outcome, the state after the
call, the warnings logged, and the event names passed to `contract.off`. -/
structure UnsubOut where
  outcome : Except String Unit
  state : InteractState
  warnings : List String
  offEvents : List String

/-- `unsubscribeFromEvent(listenerId)` from interact.ts: before
initialization it throws; an id absent from `eventListeners` logs
`Listener ... not found` and returns without touching anything; a present
id is detached from the contract (the event name is recovered as
`listenerId.split('-')[0]`) and deleted from the map. -/
def unsubscribeFromEvent (s : InteractState) (listenerId : String) : UnsubOut :=
  if s.initialized = false then
    { outcome := Except.error "Contract not initialized. Call initialize() first.",
      state := s, warnings := [], offEvents := [] }
  else
    match s.eventListeners listenerId with
    | none =>
        { outcome := Except.ok (), state := s,
          warnings := ["Listener " ++ listenerId ++ " not found"], offEvents := [] }
    | some _ =>
        { outcome := Except.ok (),
          state := { s with eventListeners := fun k =>
              if k = listenerId then none else s.eventListeners k },
          warnings := [],
          offEvents := [(listenerId.splitOn "-").headD ""] }

/-- The errors of `sendTransaction`, in the order its guards test them:
no bound contract, no signing identity, and the rethrown transport or
revert error of the submission/confirmation pipeline. -/
inductive TxError where
  | contractNotInitialized
  | noSigningIdentity
  | methodError (msg : String)
deriving DecidableEq, Repr

/-- What the network does with one submitted transaction: the submission
itself can throw, the confirmation (`tx.wait()`) can throw, or a receipt
(tagged by its block number) is returned. -/
inductive SendOutcome where
  | submitFail (msg : String)
  | confirmFail (msg : String)
  | confirmed (receipt : Nat)
deriving DecidableEq, Repr

/-- Result of `sendTransaction` together with the number of network
submissions it performed. -/
structure SendOut where
  result : Except TxError Nat
  submissions : Nat

/-- `sendTransaction(method, args, options)` from interact.ts: throws
`Contract not initialized` before `initialize()`, throws `Private key not
provided. Cannot send transactions.` without a wallet, and otherwise
submits once and awaits confirmation, with both pipeline failures rethrown
from the same catch block. -/
def sendTransaction (s : InteractState) (outcome : SendOutcome) : SendOut :=
  if s.initialized = false then
    { result := Except.error TxError.contractNotInitialized, submissions := 0 }
  else if s.hasWallet = false then
    { result := Except.error TxError.noSigningIdentity, submissions := 0 }
  else
    match outcome with
    | SendOutcome.submitFail msg =>
        { result := Except.error (TxError.methodError msg), submissions := 1 }
    | SendOutcome.confirmFail msg =>
        { result := Except.error (TxError.methodError msg), submissions := 1 }
    | SendOutcome.confirmed receipt =>
        { result := Except.ok receipt, submissions := 1 }

/-- One element of the `transactions` array passed to
`batchTransactions`. -/
structure BatchTx where
  method : String
  args : List String

/-- The observable steps of a batch run: the single `getNonce()` network
fetch, and per transaction the local fixing of `options.nonce`, the network
submission, and the awaited confirmation. -/
inductive BatchEv where
  | fetchNonce (n : Nat)
  | assign (i nonce : Nat)
  | submit (i nonce : Nat)
  | confirm (i nonce : Nat)
deriving DecidableEq, Repr

/-- The steps one `sendTransaction` call inside the batch performs for
transaction `i` under `nonce`: the nonce is fixed, then the submission is
attempted; a confirmation step follows only when the network confirms. -/
def txEvents (o : SendOutcome) (i nonce : Nat) : List BatchEv :=
  match o with
  | SendOutcome.submitFail _ => [BatchEv.assign i nonce, BatchEv.submit i nonce]
  | SendOutcome.confirmFail _ => [BatchEv.assign i nonce, BatchEv.submit i nonce]
  | SendOutcome.confirmed _ =>
      [BatchEv.assign i nonce, BatchEv.submit i nonce, BatchEv.confirm i nonce]

/-- The message of a failing `SendOutcome` (unused for confirmed ones). -/
def sendMsg : SendOutcome → String
  | SendOutcome.submitFail m => m
  | SendOutcome.confirmFail m => m
  | SendOutcome.confirmed _ => ""

/-- The receipt of a confirmed `SendOutcome` (unused for failing ones). -/
def sendReceipt : SendOutcome → Nat
  | SendOutcome.confirmed r => r
  | _ => 0

/-- Whether the network confirmed the transaction. -/
def isConfirmed : SendOutcome → Bool
  | SendOutcome.confirmed _ => true
  | _ => false

/-- The `for (const tx of transactions)` loop of `batchTransactions`,
processing transaction `i` onward with the running `nonce`: each iteration
fixes `options.nonce = nonce++`, awaits `sendTransaction`, and pushes the
receipt; the first failure rethrows, abandoning the receipts collected so
far and never reaching the later transactions. -/
def batchLoop (env : Nat → SendOutcome) :
    List BatchTx → Nat → Nat → List BatchEv × Except String (List Nat)
  | [], _, _ => ([], Except.ok [])
  | _ :: rest, i, nonce =>
      match env i with
      | SendOutcome.submitFail m =>
          (txEvents (SendOutcome.submitFail m) i nonce, Except.error m)
      | SendOutcome.confirmFail m =>
          (txEvents (SendOutcome.confirmFail m) i nonce, Except.error m)
      | SendOutcome.confirmed r =>
          match batchLoop env rest (i + 1) (nonce + 1) with
          | (evs, Except.ok receipts) =>
              (txEvents (SendOutcome.confirmed r) i nonce ++ evs,
                Except.ok (r :: receipts))
          | (evs, Except.error m) =>
              (txEvents (SendOutcome.confirmed r) i nonce ++ evs,
                Except.error m)

/-- `batchTransactions(transactions)` from interact.ts, with the per-index
network behaviour `env` and the answer `startNonce` of the single
`getNonce()` call supplied by the environment.  After the initialization
and wallet guards, the nonce is fetched once and the loop runs. -/
def batchTransactions (s : InteractState) (env : Nat → SendOutcome)
    (startNonce : Nat) (txs : List BatchTx) :
    List BatchEv × Except String (List Nat) :=
  if s.initialized = false then
    ([], Except.error "Contract not initialized. Call initialize() first.")
  else if s.hasWallet = false then
    ([], Except.error "Private key not provided. Cannot send transactions.")
  else
    (BatchEv.fetchNonce startNonce :: (batchLoop env txs 0 startNonce).1,
      (batchLoop env txs 0 startNonce).2)

/-- How many transactions of the batch are attempted, starting at index
`i`: every transaction up to and including the first unconfirmed one. -/
def execCount (env : Nat → SendOutcome) : Nat → List BatchTx → Nat
  | _, [] => 0
  | i, _ :: rest =>
      if isConfirmed (env i) then execCount env (i + 1) rest + 1 else 1

/-- Whether the network confirms every transaction of the batch starting at
index `i`. -/
def allConfirmed (env : Nat → SendOutcome) : Nat → List BatchTx → Bool
  | _, [] => true
  | i, _ :: rest => isConfirmed (env i) && allConfirmed env (i + 1) rest

/-! ### Batch characterization lemmas -/

theorem execCount_pos (env : Nat → SendOutcome) (i : Nat) (t : BatchTx)
    (rest : List BatchTx) : 1 ≤ execCount env i (t :: rest) := by
  unfold execCount
  by_cases h : isConfirmed (env i) <;> simp [h]

theorem execCount_le_length (env : Nat → SendOutcome) :
    ∀ (txs : List BatchTx) (i : Nat), execCount env i txs ≤ txs.length := by
  intro txs
  induction txs with
  | nil => intro i; simp [execCount]
  | cons t rest ih =>
      intro i
      unfold execCount
      by_cases h : isConfirmed (env i)
      · rw [if_pos h]
        have := ih (i + 1)
        simp only [List.length_cons]
        omega
      · rw [if_neg h]
        simp only [List.length_cons]
        omega

theorem execCount_confirmed (env : Nat → SendOutcome) :
    ∀ (txs : List BatchTx) (i d : Nat), d + 1 < execCount env i txs →
      isConfirmed (env (i + d)) = true := by
  intro txs
  induction txs with
  | nil => intro i d h; simp [execCount] at h
  | cons t rest ih =>
      intro i d h
      unfold execCount at h
      by_cases hc : isConfirmed (env i)
      · rw [if_pos hc] at h
        cases d with
        | zero => simpa using hc
        | succ e =>
            have hlt : e + 1 < execCount env (i + 1) rest := by omega
            have hres := ih (i + 1) e hlt
            have heq : i + 1 + e = i + (e + 1) := by omega
            rw [heq] at hres
            exact hres
      · rw [if_neg hc] at h
        omega

theorem batchLoop_cons (env : Nat → SendOutcome) (t : BatchTx)
    (rest : List BatchTx) (i nonce : Nat) :
    batchLoop env (t :: rest) i nonce =
      match env i with
      | SendOutcome.submitFail m =>
          (txEvents (SendOutcome.submitFail m) i nonce, Except.error m)
      | SendOutcome.confirmFail m =>
          (txEvents (SendOutcome.confirmFail m) i nonce, Except.error m)
      | SendOutcome.confirmed r =>
          match batchLoop env rest (i + 1) (nonce + 1) with
          | (evs, Except.ok receipts) =>
              (txEvents (SendOutcome.confirmed r) i nonce ++ evs,
                Except.ok (r :: receipts))
          | (evs, Except.error m) =>
              (txEvents (SendOutcome.confirmed r) i nonce ++ evs,
                Except.error m) := rfl

theorem execCount_cons (env : Nat → SendOutcome) (t : BatchTx)
    (rest : List BatchTx) (i : Nat) :
    execCount env i (t :: rest) =
      if isConfirmed (env i) then execCount env (i + 1) rest + 1 else 1 := rfl

theorem allConfirmed_cons (env : Nat → SendOutcome) (t : BatchTx)
    (rest : List BatchTx) (i : Nat) :
    allConfirmed env i (t :: rest) =
      (isConfirmed (env i) && allConfirmed env (i + 1) rest) := rfl

theorem batchLoop_cons_confirmed (env : Nat → SendOutcome) (t : BatchTx)
    (rest : List BatchTx) (i nonce r : Nat)
    (hc : env i = SendOutcome.confirmed r) :
    batchLoop env (t :: rest) i nonce =
      (txEvents (SendOutcome.confirmed r) i nonce ++
          (batchLoop env rest (i + 1) (nonce + 1)).1,
        match (batchLoop env rest (i + 1) (nonce + 1)).2 with
        | Except.ok receipts => Except.ok (r :: receipts)
        | Except.error m => Except.error m) := by
  rw [batchLoop_cons, hc]
  rcases hb : batchLoop env rest (i + 1) (nonce + 1) with ⟨evs, res⟩
  cases res <;> rfl

theorem batchLoop_trace (env : Nat → SendOutcome) :
    ∀ (txs : List BatchTx) (i nonce : Nat),
      (batchLoop env txs i nonce).1 =
        (List.range (execCount env i txs)).flatMap
          (fun d => txEvents (env (i + d)) (i + d) (nonce + d)) := by
  intro txs
  induction txs with
  | nil => intro i nonce; simp [batchLoop, execCount]
  | cons t rest ih =>
      intro i nonce
      cases hc : env i with
      | submitFail m =>
          rw [batchLoop_cons, hc, execCount_cons, hc]
          simp [isConfirmed, hc, List.range_succ_eq_map, List.range_zero, List.flatMap_cons]
      | confirmFail m =>
          rw [batchLoop_cons, hc, execCount_cons, hc]
          simp [isConfirmed, hc, List.range_succ_eq_map, List.range_zero, List.flatMap_cons]
      | confirmed r =>
          have hexec : execCount env i (t :: rest) =
              execCount env (i + 1) rest + 1 := by
            rw [execCount_cons, hc]
            simp [isConfirmed]
          rw [batchLoop_cons_confirmed env t rest i nonce r hc, hexec,
            ih (i + 1) (nonce + 1), List.range_succ_eq_map, List.flatMap_cons,
            List.flatMap_map]
          simp [hc, Nat.add_assoc, Nat.add_comm, Nat.add_left_comm]

theorem batchLoop_result (env : Nat → SendOutcome) :
    ∀ (txs : List BatchTx) (i nonce : Nat),
      (batchLoop env txs i nonce).2 =
        if allConfirmed env i txs then
          Except.ok ((List.range txs.length).map (fun d => sendReceipt (env (i + d))))
        else
          Except.error (sendMsg (env (i + (execCount env i txs - 1)))) := by
  intro txs
  induction txs with
  | nil => intro i nonce; simp [batchLoop, allConfirmed]
  | cons t rest ih =>
      intro i nonce
      cases hc : env i with
      | submitFail m =>
          have hall : allConfirmed env i (t :: rest) = false := by
            rw [allConfirmed_cons, hc]; simp [isConfirmed]
          have hexec : execCount env i (t :: rest) = 1 := by
            rw [execCount_cons, hc]; simp [isConfirmed]
          rw [batchLoop_cons, hc, hall, hexec]
          simp [sendMsg, hc]
      | confirmFail m =>
          have hall : allConfirmed env i (t :: rest) = false := by
            rw [allConfirmed_cons, hc]; simp [isConfirmed]
          have hexec : execCount env i (t :: rest) = 1 := by
            rw [execCount_cons, hc]; simp [isConfirmed]
          rw [batchLoop_cons, hc, hall, hexec]
          simp [sendMsg, hc]
      | confirmed r =>
          have hall : allConfirmed env i (t :: rest) =
              allConfirmed env (i + 1) rest := by
            rw [allConfirmed_cons, hc]; simp [isConfirmed]
          have hexec : execCount env i (t :: rest) =
              execCount env (i + 1) rest + 1 := by
            rw [execCount_cons, hc]; simp [isConfirmed]
          have hproj : (batchLoop env (t :: rest) i nonce).2 =
              match (batchLoop env rest (i + 1) (nonce + 1)).2 with
              | Except.ok receipts => Except.ok (r :: receipts)
              | Except.error m => Except.error m := by
            rw [batchLoop_cons_confirmed env t rest i nonce r hc]
          rw [hproj, ih (i + 1) (nonce + 1), hall, hexec]
          by_cases hrest : allConfirmed env (i + 1) rest = true
          · have hlist : (List.range (t :: rest).length).map
                  (fun d => sendReceipt (env (i + d))) =
                r :: (List.range rest.length).map
                  (fun d => sendReceipt (env (i + 1 + d))) := by
              simp only [List.length_cons, List.range_succ_eq_map, List.map_cons,
                List.map_map, Nat.add_zero, hc, sendReceipt]
              congr 1
              apply List.map_congr_left
              intro d _
              have harith : i + Nat.succ d = i + 1 + d := by omega
              simp [Function.comp, harith]
            rw [if_pos hrest, if_pos hrest, hlist]
          · rw [if_neg hrest, if_neg hrest]
            cases rest with
            | nil => simp [allConfirmed] at hrest
            | cons a as =>
                have hpos := execCount_pos env (i + 1) a as
                have harith : i + 1 + (execCount env (i + 1) (a :: as) - 1) =
                    i + (execCount env (i + 1) (a :: as) + 1 - 1) := by omega
                rw [harith]

/-! ### Claim theorems: initialization, signing guard, unsubscription -/

/-- C4: `initialize()` fails — necessarily with an ABI-resolution error,
the only failure class it has — exactly when the config carries no ABI and
no usable explorer credentials (no API key, or an explorer lookup that does
not yield a verified ABI; the network name is optional and defaults to
`mainnet`); and with an ABI supplied it succeeds without contacting the
explorer, binding a wallet exactly when a private key is present. -/
theorem initializeService_abi_resolution (config : ContractConfig)
    (explorer : String → String → Except String (List String)) :
    ((initializeService config explorer).outcome.isOk = false ↔
      config.abi = none ∧ (config.etherscanApiKey = none ∨
        (explorer config.address
          (config.etherscanNetwork.getD "mainnet")).isOk = false))
    ∧ (∀ a, config.abi = some a →
        (initializeService config explorer).outcome =
          Except.ok { abi := a, hasWallet := config.privateKey.isSome } ∧
        (initializeService config explorer).explorerCalls = 0) := by
  constructor
  · unfold initializeService
    cases habi : config.abi with
    | some a => simp [Except.isOk, Except.toBool]
    | none =>
        cases hkey : config.etherscanApiKey with
        | none => simp [Except.isOk, Except.toBool]
        | some k =>
            cases hexp : explorer config.address
                (config.etherscanNetwork.getD "mainnet") with
            | ok abi => simp [hexp, Except.isOk, Except.toBool]
            | error msg => simp [hexp, Except.isOk, Except.toBool]
  · intro a habi
    unfold initializeService
    rw [habi]
    exact ⟨rfl, rfl⟩

theorem initializeService_abi_resolution_witness :
    ((initializeService
        { address := "0xC0FFEE", abi := none, providerUrl := "http://localhost:8545",
          privateKey := none, etherscanApiKey := none, etherscanNetwork := none }
        (fun _ _ => Except.error "no network")).outcome.isOk = false)
    ∧ (initializeService
        { address := "0xC0FFEE", abi := some ["function f()"],
          providerUrl := "http://localhost:8545", privateKey := none,
          etherscanApiKey := none, etherscanNetwork := none }
        (fun _ _ => Except.error "no network")).outcome =
      Except.ok { abi := ["function f()"], hasWallet := false } := by
  constructor
  · exact (initializeService_abi_resolution
      { address := "0xC0FFEE", abi := none, providerUrl := "http://localhost:8545",
        privateKey := none, etherscanApiKey := none, etherscanNetwork := none }
      (fun _ _ => Except.error "no network")).1.mpr ⟨rfl, Or.inl rfl⟩
  · exact ((initializeService_abi_resolution
      { address := "0xC0FFEE", abi := some ["function f()"],
        providerUrl := "http://localhost:8545", privateKey := none,
        etherscanApiKey := none, etherscanNetwork := none }
      (fun _ _ => Except.error "no network")).2 ["function f()"] rfl).1

/-- C9: on an initialized binding without a signing identity,
`sendTransaction` fails with the no-signing-identity error and performs no
network submission; and any call that does submit was made on an
initialized binding holding a signing identity. -/
theorem sendTransaction_requires_signer (s : InteractState)
    (outcome : SendOutcome) (hinit : s.initialized = true) :
    (s.hasWallet = false →
      sendTransaction s outcome =
        { result := Except.error TxError.noSigningIdentity, submissions := 0 })
    ∧ ((sendTransaction s outcome).submissions ≠ 0 →
      s.initialized = true ∧ s.hasWallet = true) := by
  constructor
  · intro hw
    unfold sendTransaction
    rw [hinit, hw]
    rfl
  · intro hsub
    refine ⟨hinit, ?_⟩
    by_cases hw : s.hasWallet = true
    · exact hw
    · exfalso
      apply hsub
      unfold sendTransaction
      rw [hinit]
      simp only [Bool.not_eq_true] at hw
      rw [hw]
      rfl

theorem sendTransaction_requires_signer_witness :
    sendTransaction
        { initialized := true, hasWallet := false, eventListeners := fun _ => none }
        (SendOutcome.confirmed 1) =
      { result := Except.error TxError.noSigningIdentity, submissions := 0 } :=
  (sendTransaction_requires_signer
    { initialized := true, hasWallet := false, eventListeners := fun _ => none }
    (SendOutcome.confirmed 1) rfl).1 rfl

/-- C6: on an initialized binding, `unsubscribeFromEvent` with an id absent
from the registry returns normally (with a warning) and leaves the registry
untouched, and with a registered id it removes exactly that entry. -/
theorem unsubscribeFromEvent_spec (s : InteractState) (listenerId : String)
    (hinit : s.initialized = true) :
    (s.eventListeners listenerId = none →
      (unsubscribeFromEvent s listenerId).outcome = Except.ok () ∧
      (unsubscribeFromEvent s listenerId).state = s ∧
      (unsubscribeFromEvent s listenerId).warnings =
        ["Listener " ++ listenerId ++ " not found"])
    ∧ (∀ cb, s.eventListeners listenerId = some cb →
      (unsubscribeFromEvent s listenerId).outcome = Except.ok () ∧
      (unsubscribeFromEvent s listenerId).state.eventListeners listenerId = none ∧
      ∀ k, k ≠ listenerId →
        (unsubscribeFromEvent s listenerId).state.eventListeners k =
          s.eventListeners k) := by
  constructor
  · intro habs
    unfold unsubscribeFromEvent
    rw [hinit]
    simp only [Bool.true_eq_false, if_false]
    rw [habs]
    exact ⟨rfl, rfl, rfl⟩
  · intro cb hreg
    unfold unsubscribeFromEvent
    rw [hinit]
    simp only [Bool.true_eq_false, if_false]
    rw [hreg]
    refine ⟨rfl, ?_, ?_⟩
    · simp
    · intro k hk
      simp [hk]

theorem unsubscribeFromEvent_spec_witness :
    ((unsubscribeFromEvent
        { initialized := true, hasWallet := false,
          eventListeners := fun k => if k = "Transfer-1000" then some 1 else none }
        "Swap-2000").outcome = Except.ok () ∧
      (unsubscribeFromEvent
        { initialized := true, hasWallet := false,
          eventListeners := fun k => if k = "Transfer-1000" then some 1 else none }
        "Swap-2000").state =
        { initialized := true, hasWallet := false,
          eventListeners := fun k => if k = "Transfer-1000" then some 1 else none } ∧
      (unsubscribeFromEvent
        { initialized := true, hasWallet := false,
          eventListeners := fun k => if k = "Transfer-1000" then some 1 else none }
        "Swap-2000").warnings = ["Listener " ++ "Swap-2000" ++ " not found"])
    ∧ (unsubscribeFromEvent
        { initialized := true, hasWallet := false,
          eventListeners := fun k => if k = "Transfer-1000" then some 1 else none }
        "Transfer-1000").state.eventListeners "Transfer-1000" = none := by
  constructor
  · exact (unsubscribeFromEvent_spec
      { initialized := true, hasWallet := false,
        eventListeners := fun k => if k = "Transfer-1000" then some 1 else none }
      "Swap-2000" rfl).1 (by decide)
  · exact ((unsubscribeFromEvent_spec
      { initialized := true, hasWallet := false,
        eventListeners := fun k => if k = "Transfer-1000" then some 1 else none }
      "Transfer-1000" rfl).2 1 (by decide)).2.1

/-! ### Listener ids: decimal rendering and (non-)uniqueness -/

/-- The decimal digit characters of `n`, most significant first; this is
the list `Nat.toDigits 10 n` produces (proved in `toDigits_eq_natDigits`),
restated without the fuel so it can be reasoned about. -/
def natDigits (n : Nat) : List Char :=
  if _h : n < 10 then [Nat.digitChar n]
  else natDigits (n / 10) ++ [Nat.digitChar (n % 10)]
decreasing_by exact Nat.div_lt_self (by omega) (by omega)

/-- The numeric value of a decimal digit character. -/
def digitVal (c : Char) : Nat := c.toNat - 48

/-- Decimal decoding of a digit list, most significant first. -/
def decodeDigits (l : List Char) : Nat :=
  l.foldl (fun a c => 10 * a + digitVal c) 0

theorem digitVal_digitChar (d : Nat) (h : d < 10) :
    digitVal (Nat.digitChar d) = d := by
  interval_cases d <;> rfl

theorem toDigitsCore_eq_natDigits (fuel : Nat) :
    ∀ (n : Nat) (ds : List Char), n < fuel →
      Nat.toDigitsCore 10 fuel n ds = natDigits n ++ ds := by
  induction fuel with
  | zero => intro n ds h; omega
  | succ f ih =>
      intro n ds h
      rw [Nat.toDigitsCore]
      by_cases h10 : n / 10 = 0
      · have hn : n < 10 := by omega
        rw [if_pos h10, natDigits, dif_pos hn, Nat.mod_eq_of_lt hn]
        rfl
      · have hlt : n / 10 < f := by
          have hbig : 10 ≤ n := by omega
          have := Nat.div_lt_self (show 0 < n by omega) (show 1 < 10 by omega)
          omega
        rw [if_neg h10, natDigits, dif_neg (show ¬ n < 10 by omega),
          ih (n / 10) (Nat.digitChar (n % 10) :: ds) hlt]
        simp [List.append_assoc]

theorem toDigits_eq_natDigits (n : Nat) : Nat.toDigits 10 n = natDigits n := by
  have h := toDigitsCore_eq_natDigits (n + 1) n [] (Nat.lt_succ_self n)
  simpa [Nat.toDigits] using h

theorem decodeDigits_natDigits (n : Nat) : decodeDigits (natDigits n) = n := by
  induction n using Nat.strong_induction_on with
  | _ n ih =>
      by_cases h : n < 10
      · rw [natDigits, dif_pos h]
        show 10 * 0 + digitVal (Nat.digitChar n) = n
        rw [digitVal_digitChar n h]
        omega
      · rw [natDigits, dif_neg h]
        unfold decodeDigits
        rw [List.foldl_append]
        have hd : n / 10 < n := Nat.div_lt_self (by omega) (by omega)
        have hrec := ih (n / 10) hd
        unfold decodeDigits at hrec
        rw [hrec]
        show 10 * (n / 10) + digitVal (Nat.digitChar (n % 10)) = n
        rw [digitVal_digitChar (n % 10) (Nat.mod_lt n (by omega))]
        omega

theorem natRepr_inj (m n : Nat) (h : Nat.repr m = Nat.repr n) : m = n := by
  have hd : Nat.toDigits 10 m = Nat.toDigits 10 n := List.asString_inj.mp h
  rw [toDigits_eq_natDigits, toDigits_eq_natDigits] at hd
  have := congrArg decodeDigits hd
  rwa [decodeDigits_natDigits, decodeDigits_natDigits] at this

/-- The timestamp part of a listener id determines the timestamp: the id
embeds `toString now` after the last separator, and decimal rendering is
injective. -/
theorem mkListenerId_inj (eventName : String) (t1 t2 : Nat)
    (h : mkListenerId eventName t1 = mkListenerId eventName t2) : t1 = t2 := by
  unfold mkListenerId at h
  have hdata := congrArg String.data h
  rw [String.data_append, String.data_append, String.data_append,
    String.data_append] at hdata
  have htail := List.append_cancel_left hdata
  have hstr : toString t1 = toString t2 := by
    have hdataeq : (toString t1).data = (toString t2).data := htail
    calc toString t1 = String.mk (toString t1).data := rfl
      _ = String.mk (toString t2).data := by rw [hdataeq]
      _ = toString t2 := rfl
  exact natRepr_inj t1 t2 hstr

/-- The service state both C5 runs start from: initialized, no wallet, no
listeners yet. -/
def collisionState : InteractState :=
  { initialized := true, hasWallet := false, eventListeners := fun _ => none }

/-- C5 refuted: two `subscribeToEvent` calls for the same event name within
the same millisecond (`Date.now() = 1000` for both) both return the id
`"Transfer-1000"` — the ids are equal, not distinct, as there is no
sequence-number fallback in the source. -/
theorem subscribeToEvent_same_ms_collision :
    ((subscribeToEvent collisionState "Transfer" 1 1000).bind fun r =>
      (subscribeToEvent r.2 "Transfer" 2 1000).map fun r2 => (r.1, r2.1)) =
    Except.ok ("Transfer-1000", "Transfer-1000") := rfl

/-- C5 (amended): `subscribeToEvent` returns the id
`` `${eventName}-${Date.now()}` `` and registers the callback under it;
ids of two subscriptions to the same event are distinct if and only if
their creation timestamps differ — in the same millisecond the ids
coincide (and the later registration overwrites the earlier), as the
implementation has no sequence-number fallback. -/
theorem subscribeToEvent_listenerId (s : InteractState) (eventName : String)
    (cb t1 t2 : Nat) (hinit : s.initialized = true) :
    (∃ s1, subscribeToEvent s eventName cb t1 =
        Except.ok (mkListenerId eventName t1, s1) ∧
      s1.eventListeners (mkListenerId eventName t1) = some cb)
    ∧ (t1 ≠ t2 → mkListenerId eventName t1 ≠ mkListenerId eventName t2)
    ∧ (mkListenerId eventName t1 = mkListenerId eventName t2 → t1 = t2) := by
  refine ⟨?_, ?_, ?_⟩
  · refine ⟨{ s with eventListeners := fun k =>
        if k = mkListenerId eventName t1 then some cb
        else s.eventListeners k }, ?_, ?_⟩
    · unfold subscribeToEvent
      rw [hinit]
      rfl
    · simp
  · intro hne heq
    exact hne (mkListenerId_inj eventName t1 t2 heq)
  · exact mkListenerId_inj eventName t1 t2

theorem subscribeToEvent_listenerId_witness :
    (∃ s1, subscribeToEvent collisionState "Transfer" 7 1000 =
        Except.ok (mkListenerId "Transfer" 1000, s1) ∧
      s1.eventListeners (mkListenerId "Transfer" 1000) = some 7)
    ∧ mkListenerId "Transfer" 1000 ≠ mkListenerId "Transfer" 1001 := by
  have h := subscribeToEvent_listenerId collisionState "Transfer" 7 1000 1001 rfl
  exact ⟨h.1, h.2.1 (by decide)⟩

/-! ### Batch transaction claim -/

/-- Recognizes the nonce-fetch event. -/
def isFetch : BatchEv → Bool
  | BatchEv.fetchNonce _ => true
  | _ => false

/-- Extracts a nonce assignment as `(transaction index, nonce)`. -/
def assignOf : BatchEv → Option (Nat × Nat)
  | BatchEv.assign i nonce => some (i, nonce)
  | _ => none

theorem txEvents_filter_isFetch (o : SendOutcome) (i nonce : Nat) :
    (txEvents o i nonce).filter isFetch = [] := by
  cases o <;> rfl

theorem txEvents_filterMap_assignOf (o : SendOutcome) (i nonce : Nat) :
    (txEvents o i nonce).filterMap assignOf = [(i, nonce)] := by
  cases o <;> rfl

theorem filter_flatMap {a b : Type} (l : List a) (f : a → List b) (p : b → Bool) :
    (l.flatMap f).filter p = l.flatMap (fun x => (f x).filter p) := by
  induction l with
  | nil => rfl
  | cons x xs ih => simp [List.flatMap_cons, List.filter_append, ih]

theorem filterMap_flatMap {a b c : Type} (l : List a) (f : a → List b)
    (g : b → Option c) :
    (l.flatMap f).filterMap g = l.flatMap (fun x => (f x).filterMap g) := by
  induction l with
  | nil => rfl
  | cons x xs ih => simp [List.flatMap_cons, List.filterMap_append, ih]

theorem flatMap_nil_fun {a b : Type} (l : List a) :
    l.flatMap (fun _ => ([] : List b)) = [] := by
  induction l with
  | nil => rfl
  | cons x xs ih => simp [List.flatMap_cons, ih]

theorem flatMap_singleton_fun {a b : Type} (l : List a) (g : a → b) :
    l.flatMap (fun x => [g x]) = l.map g := by
  induction l with
  | nil => rfl
  | cons x xs ih => simp [List.flatMap_cons, ih]

theorem txEvents_submit_eq (o : SendOutcome) (i nonce j nn : Nat)
    (h : BatchEv.submit j nn ∈ txEvents o i nonce) : j = i ∧ nn = nonce := by
  cases o <;> simp [txEvents] at h <;> exact h

theorem execCount_of_allConfirmed (env : Nat → SendOutcome) :
    ∀ (txs : List BatchTx) (i : Nat), allConfirmed env i txs = true →
      execCount env i txs = txs.length := by
  intro txs
  induction txs with
  | nil => intro i _; rfl
  | cons t rest ih =>
      intro i h
      rw [allConfirmed_cons, Bool.and_eq_true] at h
      rw [execCount_cons, if_pos h.1, ih (i + 1) h.2, List.length_cons]

theorem batchTransactions_run (s : InteractState) (env : Nat → SendOutcome)
    (startNonce : Nat) (txs : List BatchTx)
    (hinit : s.initialized = true) (hwallet : s.hasWallet = true) :
    batchTransactions s env startNonce txs =
      (BatchEv.fetchNonce startNonce :: (batchLoop env txs 0 startNonce).1,
        (batchLoop env txs 0 startNonce).2) := by
  unfold batchTransactions
  rw [hinit, hwallet]
  rfl

/-- C1: on an initialized binding with a wallet, a batch run (i) fetches
the nonce exactly once, as its very first step; (ii) then processes the
transactions strictly in list order, transaction `d` getting
`assign d (startNonce + d)` before its submission and its confirmation
being awaited before transaction `d + 1` is touched (the trace equation
gives the complete order; the last conjunct isolates the consequence that
transaction `j` is submitted only if transaction `j - 1` was confirmed);
(iii) the assigned nonces are exactly `startNonce, startNonce + 1, ...` in
list order; (iv) when every transaction confirms, all of them execute and
the receipts are returned in order; (v) on the first failure the run stops
with that failure — the already-confirmed prefix keeps its confirmations
(their `confirm` events stand in the trace) and no later transaction is
assigned, submitted, or confirmed. -/
theorem batchTransactions_spec (s : InteractState) (env : Nat → SendOutcome)
    (startNonce : Nat) (txs : List BatchTx)
    (hinit : s.initialized = true) (hwallet : s.hasWallet = true) :
    ((batchTransactions s env startNonce txs).1 =
      BatchEv.fetchNonce startNonce ::
        (List.range (execCount env 0 txs)).flatMap
          (fun d => txEvents (env d) d (startNonce + d)))
    ∧ ((batchTransactions s env startNonce txs).1.filter isFetch =
        [BatchEv.fetchNonce startNonce])
    ∧ ((batchTransactions s env startNonce txs).1.filterMap assignOf =
        (List.range (execCount env 0 txs)).map (fun d => (d, startNonce + d)))
    ∧ (allConfirmed env 0 txs = true →
        execCount env 0 txs = txs.length ∧
        (batchTransactions s env startNonce txs).2 =
          Except.ok ((List.range txs.length).map (fun d => sendReceipt (env d))))
    ∧ (allConfirmed env 0 txs = false →
        (batchTransactions s env startNonce txs).2 =
          Except.error (sendMsg (env (execCount env 0 txs - 1))) ∧
        execCount env 0 txs ≤ txs.length)
    ∧ (∀ j nn, BatchEv.submit j nn ∈ (batchTransactions s env startNonce txs).1 →
        0 < j → isConfirmed (env (j - 1)) = true ∧
          BatchEv.confirm (j - 1) (startNonce + (j - 1)) ∈
            (batchTransactions s env startNonce txs).1) := by
  have hrun := batchTransactions_run s env startNonce txs hinit hwallet
  have hloop := batchLoop_trace env txs 0 startNonce
  simp only [Nat.zero_add] at hloop
  have htrace : (batchTransactions s env startNonce txs).1 =
      BatchEv.fetchNonce startNonce ::
        (List.range (execCount env 0 txs)).flatMap
          (fun d => txEvents (env d) d (startNonce + d)) := by
    rw [hrun]
    show BatchEv.fetchNonce startNonce :: (batchLoop env txs 0 startNonce).1 = _
    rw [hloop]
  refine ⟨htrace, ?_, ?_, ?_, ?_, ?_⟩
  · rw [htrace]
    simp only [List.filter_cons]
    rw [filter_flatMap]
    simp [isFetch, txEvents_filter_isFetch, flatMap_nil_fun]
  · rw [htrace]
    simp only [List.filterMap_cons]
    rw [filterMap_flatMap]
    simp [assignOf, txEvents_filterMap_assignOf, flatMap_singleton_fun]
  · intro hall
    refine ⟨execCount_of_allConfirmed env txs 0 hall, ?_⟩
    rw [hrun]
    show (batchLoop env txs 0 startNonce).2 = _
    rw [batchLoop_result env txs 0 startNonce, if_pos hall]
    simp only [Nat.zero_add]
  · intro hall
    constructor
    · rw [hrun]
      show (batchLoop env txs 0 startNonce).2 = _
      rw [batchLoop_result env txs 0 startNonce, if_neg (by simp [hall])]
      simp only [Nat.zero_add]
    · exact execCount_le_length env txs 0
  · intro j nn hmem hj
    rw [htrace] at hmem
    rcases List.mem_cons.mp hmem with hfetch | hflat
    · exact absurd hfetch (by simp)
    · obtain ⟨d, hd, hmem2⟩ := List.mem_flatMap.mp hflat
      obtain ⟨hjd, hnn⟩ := txEvents_submit_eq (env d) d (startNonce + d) j nn hmem2
      subst hjd
      have hdlt : j < execCount env 0 txs := List.mem_range.mp hd
      have hconf : isConfirmed (env (j - 1)) = true := by
        have hcc := execCount_confirmed env txs 0 (j - 1) (by omega)
        simpa using hcc
      refine ⟨hconf, ?_⟩
      rw [htrace]
      refine List.mem_cons_of_mem _ (List.mem_flatMap.mpr
        ⟨j - 1, List.mem_range.mpr (by omega), ?_⟩)
      rcases henv : env (j - 1) with m | m | r
      · rw [henv] at hconf; simp [isConfirmed] at hconf
      · rw [henv] at hconf; simp [isConfirmed] at hconf
      · simp [txEvents]

/-- An initialized state holding a signing identity, used by the C1
witness. -/
def walletState : InteractState :=
  { initialized := true, hasWallet := true, eventListeners := fun _ => none }

/-- The batch the C1 witness runs: two transactions, the network confirming
everything with receipts 11 and 12. -/
def witnessEnv : Nat → SendOutcome := fun i => SendOutcome.confirmed (11 + i)

/-- The transaction list of the C1 witness. -/
def witnessTxs : List BatchTx :=
  [{ method := "transfer", args := ["0xAAA", "10"] },
    { method := "approve", args := ["0xBBB", "20"] }]

theorem batchTransactions_spec_witness :
    ((batchTransactions walletState witnessEnv 5 witnessTxs).1 =
      BatchEv.fetchNonce 5 ::
        (List.range (execCount witnessEnv 0 witnessTxs)).flatMap
          (fun d => txEvents (witnessEnv d) d (5 + d)))
    ∧ (batchTransactions walletState witnessEnv 5 witnessTxs).2 =
      Except.ok ((List.range witnessTxs.length).map
        (fun d => sendReceipt (witnessEnv d))) := by
  have h := batchTransactions_spec walletState witnessEnv 5 witnessTxs rfl rfl
  exact ⟨h.1, (h.2.2.2.1 (by decide)).2⟩

end ColossusWeb3
